import Mathlib

/-!
Verification development for the Discord video hoster server
(`main.js` and its sibling iterations).

The definitions below are a shallow embedding of the JavaScript source:

* the `GET /v/:id` handler with its HTTP `Range` parsing and the
  `fs.createReadStream(filePath, \x7bstart, end\x7d)` byte slicing;
* the in-memory transcode job table (`transcodeJobs`), the background
  transcode task of `POST /upload`, and the progress-estimation poll of
  `transcodeToMp4`;
* the WebSocket broadcast hub (`subscribers`, `broadcastStatus`,
  the `subscribe`/`unsubscribe`/`close` handlers);
* the metadata update performed after a successful transcode.

Strings are modelled as `List Char`, opaque identifiers and connection
handles as `Nat`, file contents as `List Nat` (byte values), and JavaScript
numbers appearing in the progress math as exact rationals (the claims under
scrutiny are stated in exact integer arithmetic).  Fallible filesystem
operations are modelled by explicit outcome parameters.
-/

namespace VideoHoster

/-! ## JavaScript string helpers used by the range parser

`range.replace(/bytes=/, '')` replaces the first occurrence of `bytes=`;
`.split('-')` splits on every dash; `parseInt(s, 10)` skips leading
whitespace, accepts an optional sign, and reads a maximal run of decimal
digits (returning NaN — here `none` — when there is none).
-/

/-- If `pat` is a prefix of the list, return the remainder, else `none`. -/
def dropMatch : List Char → List Char → Option (List Char)
  | [], s => some s
  | _ :: _, [] => none
  | p :: ps, c :: cs => if p = c then dropMatch ps cs else none

/-- JavaScript `String.prototype.replace` with a non-global pattern: replace the first
occurrence of `pat` by `repl`. -/
def replaceFirstChars (pat repl : List Char) : List Char → List Char
  | [] => []
  | c :: rest =>
    match dropMatch pat (c :: rest) with
    | some rem => repl ++ rem
    | none => c :: replaceFirstChars pat repl rest

/-- JavaScript `String.prototype.split('-')`. -/
def splitOnDash : List Char → List (List Char)
  | [] => [[]]
  | c :: rest =>
    if c = '-' then [] :: splitOnDash rest
    else
      match splitOnDash rest with
      | [] => [[c]]
      | p :: ps => (c :: p) :: ps

/-- Numeric value of an ASCII digit. -/
def digitVal (c : Char) : Nat := c.toNat - '0'.toNat

/-- Value of a digit string, most significant digit first. -/
def digitsToNat (ds : List Char) : Nat :=
  ds.foldl (fun acc c => acc * 10 + digitVal c) 0

/-- JavaScript `parseInt(s, 10)`: `none` models NaN. -/
def jsParseInt (s : List Char) : Option Int :=
  let s1 := s.dropWhile Char.isWhitespace
  let signed : Int × List Char :=
    match s1 with
    | '+' :: r => (1, r)
    | '-' :: r => (-1, r)
    | _ => (1, s1)
  let ds := signed.2.takeWhile Char.isDigit
  if ds.isEmpty then none else some (signed.1 * (digitsToNat ds : Int))

/-- Decimal digits of a `Nat`, as produced by JS template interpolation. -/
def natToChars (n : Nat) : List Char := Nat.toDigits 10 n

/-- Decimal rendering of an integer (`${n}` in a template literal). -/
def intToChars (i : Int) : List Char :=
  if i < 0 then '-' :: natToChars i.natAbs else natToChars i.toNat

/-- The literal pattern `/bytes=/` of the range parser. -/
def bytesEq : List Char := ['b', 'y', 't', 'e', 's', '=']

/-! ## The `GET /v/:id` handler -/

/-- One stored metadata record (`data.json` entry, `d[id]`). -/
structure MediaRecord where
  id : Nat
  filename : List Char
  originalName : List Char
  mime : List Char
  size : Nat
  createdAt : Nat
  converted : Bool
deriving DecidableEq

/-- The observable pieces of the `/v/:id` response: status code, the
`Content-Range` and `Content-Length` headers, and the streamed bytes. -/
structure VidResponse where
  status : Nat
  contentRange : Option (List Char)
  contentLength : Option Int
  body : List Nat
deriving DecidableEq

/-- The line `parts = range.replace(/bytes=/, '').split('-')`. -/
def rangeParts (h : List Char) : List (List Char) :=
  splitOnDash (replaceFirstChars bytesEq [] h)

/-- The line `const start = parseInt(parts[0], 10)`; `none` models NaN. -/
def rangeStart (h : List Char) : Option Int :=
  jsParseInt ((rangeParts h).headD [])

/-- The line `const end = parts[1] ? parseInt(parts[1], 10) : fileSize - 1`.
The empty string is falsy in JS, so an omitted end bound defaults to
`fileSize - 1`; `none` models NaN. -/
def rangeEnd (fileSize : Nat) (h : List Char) : Option Int :=
  match (rangeParts h).get? 1 with
  | some s => if s = [] then some ((fileSize : Int) - 1) else jsParseInt s
  | none => some ((fileSize : Int) - 1)

/-- The 416 response: `res.status(416).set('Content-Range', `bytes */size`).end()`. -/
def resp416 (fileSize : Nat) : VidResponse :=
  { status := 416
    contentRange := some ("bytes */".data ++ natToChars fileSize)
    contentLength := none
    body := [] }

/-- The header value `bytes start-end/fileSize` of `Content-Range`. -/
def contentRangeStr (s e : Int) (fileSize : Nat) : List Char :=
  "bytes ".data ++ intToChars s ++ '-' :: intToChars e ++ '/' :: natToChars fileSize

/-- The range-serving core of `app.get('/v/:id')`, given the backing file's
bytes and the optional `Range` header.  `fs.createReadStream(p, \x7bstart, end\x7d)`
streams the bytes from `start` through `end` inclusive, truncated at the end
of file. -/
def serveRange (file : List Nat) (range? : Option (List Char)) : VidResponse :=
  match range? with
  | none =>
    { status := 200, contentRange := none
      contentLength := some (file.length : Int), body := file }
  | some h =>
    match rangeStart h, rangeEnd file.length h with
    | some s, some e =>
      if s > e then resp416 file.length
      else
        { status := 206
          contentRange := some (contentRangeStr s e file.length)
          contentLength := some (e - s + 1)
          body := (file.drop s.toNat).take (e + 1 - s).toNat }
    | _, _ => resp416 file.length

/-- The `sendInvalidEmbed` fallback Open-Graph page, status 200.  The HTML
payload itself is not modelled; no `Content-Range`/`Content-Length` headers
and no media bytes are produced. -/
def invalidEmbedResponse : VidResponse :=
  { status := 200, contentRange := none, contentLength := none, body := [] }

/-- The `app.get('/v/:id')` handler: resolve the record, check the backing file exists
(`files` maps a stored filename to its bytes when present), then serve with
range support. -/
def handleVid (d : Nat → Option MediaRecord) (files : List Char → Option (List Nat))
    (id : Nat) (range? : Option (List Char)) : VidResponse :=
  match d id with
  | none => invalidEmbedResponse
  | some r =>
    match files r.filename with
    | none => invalidEmbedResponse
    | some bytes => serveRange bytes range?

/-! ## The in-memory transcode job table

`transcodeJobs` maps an identifier to `\x7b status, progress, message \x7d`
(further fields — `startedAt`, `elapsed`, `eta`, `timemark` — are added
dynamically by the progress poll, modelled separately below). -/

/-- The four values the `status` field takes in the source
(`'queued' | 'running' | 'done' | 'error'`). -/
inductive JStatus
  | queued
  | running
  | done
  | error
deriving DecidableEq

/-- A `transcodeJobs[id]` entry as created by `POST /upload`. -/
structure Job where
  status : JStatus
  progress : Nat
  message : List Char
deriving DecidableEq

/-- Forward position of a status in the queued → running → terminal order. -/
def statusRank : JStatus → Nat
  | .queued => 0
  | .running => 1
  | .done => 2
  | .error => 2

/-- Statuses `done` and `error` are the terminal ones. -/
def isTerminal : JStatus → Bool
  | .done => true
  | .error => true
  | _ => false

/-- One status transition is monotone when it moves forward and never leaves
a terminal state. -/
def stepOkB (a b : JStatus) : Bool :=
  decide (statusRank a ≤ statusRank b) && (!isTerminal a || b == a)

/-- A whole sequence of status writes is monotone. -/
def traceMonotoneB : List JStatus → Bool
  | [] => true
  | [_] => true
  | a :: b :: rest => stepOkB a b && traceMonotoneB (b :: rest)

/-- The sequence of writes to `transcodeJobs[id].status` performed by the
background task of `POST /upload` in the websocket variant: the entry is
created `queued`, set `running`, and — because `status = 'done'` is only
assigned *after* the metadata update succeeds — ends `done` exactly when
both the transcode and the metadata update succeed, `error` otherwise
(`transcodeToMp4` itself never writes `status`). -/
def part000StatusTrace (transcodeOk metaOk : Bool) : List JStatus :=
  [.queued, .running] ++
    if transcodeOk then (if metaOk then [.done] else [.error]) else [.error]

/-- The sequence of writes to `transcodeJobs[id].status` performed by the
background task in `main.js`: the ffmpeg `end` handler assigns `done`
*before* the metadata update runs; if `fs.statSync`/`writeFileSync` then
throws, the surrounding `catch` assigns `error`.  On an encoder error the
`error` event handler and the `catch` each assign `error`. -/
def mainJsStatusTrace (transcodeOk metaOk : Bool) : List JStatus :=
  [.queued, .running] ++
    if transcodeOk then .done :: (if metaOk then [] else [.error])
    else [.error, .error]

/-- The fresh entry `\x7b status: 'queued', progress: 0, message: 'queued' \x7d`. -/
def freshJob : Job := { status := .queued, progress := 0, message := "queued".data }

/-- The line `transcodeJobs[id] = transcodeJobs[id] || \x7b status: 'queued', ... \x7d`:
job creation keeps an existing entry and otherwise installs the fresh one.
It never fails. -/
def createJob (jobs : Nat → Option Job) (id : Nat) : Nat → Option Job :=
  fun i => if i = id then some ((jobs id).getD freshJob) else jobs i

/-- The first two statements of the background task:
`transcodeJobs[id].status = 'running'; transcodeJobs[id].message = 'starting'`. -/
def startJob (jobs : Nat → Option Job) (id : Nat) : Nat → Option Job :=
  fun i =>
    if i = id then
      (jobs i).map fun j => { j with status := .running, message := "starting".data }
    else jobs i

/-! ## The WebSocket broadcast hub -/

/-- The hub's mutable state: `subscribers` (a `Map` from id to a `Set` of
sockets; an absent id behaves as the empty set) and each socket's
`ws._subscribedId` field. -/
structure WsState where
  subs : Nat → List Nat
  lastSub : Nat → Option Nat

/-- JavaScript `Set.prototype.add`: no duplicate membership. -/
def insertConn (c : Nat) (l : List Nat) : List Nat :=
  if c ∈ l then l else l ++ [c]

/-- A `\x7b type: 'status', id, job \x7d` push; `job = none` models the
`\x7b status: 'none' \x7d` payload sent when no job exists. -/
structure StatusMsg where
  id : Nat
  job : Option Job
deriving DecidableEq

/-- The `subscribe` message handler: add the socket to the id's set
(creating the set if needed), record `ws._subscribedId = id`, and
immediately send the single message carrying
`transcodeJobs[id] || \x7b status: 'none' \x7d`.  The second component is the
list of messages sent to the subscribing socket during the operation. -/
def wsSubscribe (jobs : Nat → Option Job) (st : WsState) (c id : Nat) :
    WsState × List StatusMsg :=
  ({ subs := fun i => if i = id then insertConn c (st.subs i) else st.subs i
     lastSub := fun c2 => if c2 = c then some id else st.lastSub c2 },
   [{ id := id, job := jobs id }])

/-- The `unsubscribe` message handler: `set.delete(ws)` on that id's set
only (`ws._subscribedId` is not touched). -/
def wsUnsubscribe (st : WsState) (c id : Nat) : WsState :=
  { st with subs := fun i => if i = id then (st.subs i).filter (· != c) else st.subs i }

/-- The `ws.on('close')` handler: delete the socket from the set of
`ws._subscribedId` — the most recently subscribed id — and from no other
set. -/
def wsClose (st : WsState) (c : Nat) : WsState :=
  match st.lastSub c with
  | some id =>
    { st with subs := fun i => if i = id then (st.subs i).filter (· != c) else st.subs i }
  | none => st

/-- Per-socket outcome of one `broadcastStatus` iteration: the message was
sent, the `ws.send` call threw (and was swallowed by the per-iteration
`try/catch`), or the socket was skipped because `readyState` was not
`OPEN`. -/
inductive SendOutcome
  | sent
  | failed
  | skipped
deriving DecidableEq

/-- The `for (const ws of set)` loop of `broadcastStatus`: each socket is
visited in turn; the `try/catch` around the body confines a throwing
`ws.send` to its own iteration, so each socket's outcome is independent of
the others. -/
def broadcastRun (conns : List Nat) (isOpen sendThrows : Nat → Bool) :
    List (Nat × SendOutcome) :=
  conns.map fun c =>
    (c, if isOpen c then (if sendThrows c then .failed else .sent) else .skipped)

/-- The `broadcastStatus(id)` function: build the
`\x7b type: 'status', id, job: transcodeJobs[id] || \x7b status: 'none' \x7d \x7d`
message and push it to every subscriber of `id` (no set ≡ empty set). -/
def broadcastStatus (jobs : Nat → Option Job) (st : WsState)
    (isOpen sendThrows : Nat → Bool) (id : Nat) :
    StatusMsg × List (Nat × SendOutcome) :=
  ({ id := id, job := jobs id }, broadcastRun (st.subs id) isOpen sendThrows)

/-! ## The progress-estimation poll of `transcodeToMp4` -/

/-- JavaScript `Math.round` on the exact-arithmetic model: round half up. -/
def jsRound (q : ℚ) : ℤ := ⌊q + 1/2⌋

/-- The fields written by one tick of the 800 ms `setInterval` poll. -/
structure PollSample where
  progress : ℤ
  elapsed : ℤ
  eta : Option ℤ
deriving DecidableEq

/-- One tick of the poll, given the current output size, the input size and
the elapsed milliseconds.  `if (!inputSize) return;` yields no sample;
otherwise `pct = Math.min(100, Math.round((outSize / inputSize) * 100))`,
`elapsed = Math.max(0, Math.round((Date.now() - startTime) / 1000))`, and
`eta = Math.max(0, Math.round(elapsed * (100 / pct)) - elapsed)` when
`pct > 0`, `null` otherwise. -/
def pollStep (outSize inputSize elapsedMs : Nat) : Option PollSample :=
  if inputSize = 0 then none
  else
    let pct : ℤ := min 100 (jsRound ((outSize : ℚ) / (inputSize : ℚ) * 100))
    let el : ℤ := max 0 (jsRound ((elapsedMs : ℚ) / 1000))
    some
      { progress := pct
        elapsed := el
        eta :=
          if 0 < pct then
            some (max 0 (jsRound ((el : ℚ) * (100 / (pct : ℚ))) - el))
          else none }

/-! ## The metadata update after a transcode -/

/-- The `d2[id].filename/mime/size/converted` update performed after a
successful transcode: `mime.lookup(finalPath) || d2[id].mime` is modelled by
the optional `lookupMime`; when `d2[id]` does not exist nothing is
written. -/
def updateMetaAfterTranscode (d : Nat → Option MediaRecord) (id : Nat)
    (newName : List Char) (lookupMime : Option (List Char)) (newSize : Nat) :
    Nat → Option MediaRecord :=
  match d id with
  | none => d
  | some r =>
    fun i =>
      if i = id then
        some { r with
                filename := newName
                mime := lookupMime.getD r.mime
                size := newSize
                converted := true }
      else d i

/-- The effect of the background task's completion on the stored files and
the metadata mapping.  On success: `fs.unlinkSync(finalPath)` removes the
original file (the converted file was already written by the encoder) and
the record is updated; on failure (the `catch` branch) only the job entry is
touched — neither the files nor the metadata change. -/
def bgTranscodeEffect (transcodeOk : Bool) (files : List (List Char))
    (d : Nat → Option MediaRecord) (id : Nat) (origName newName : List Char)
    (lookupMime : Option (List Char)) (newSize : Nat) :
    List (List Char) × (Nat → Option MediaRecord) :=
  if transcodeOk then
    (files.filter (· != origName), updateMetaAfterTranscode d id newName lookupMime newSize)
  else (files, d)

/-! ## Helper lemmas -/

/-- Stripping the `bytes=` pattern from a header that starts with it. -/
lemma replaceFirst_bytesEq (rest : List Char) :
    replaceFirstChars bytesEq [] (bytesEq ++ rest) = rest := rfl

/-- Splitting a dash-free string yields the single fragment. -/
lemma splitOnDash_noDash {xs : List Char} (h : '-' ∉ xs) : splitOnDash xs = [xs] := by
  induction xs with
  | nil => rfl
  | cons c rest ih =>
    have hc : ¬ c = '-' := fun hc => h (hc ▸ List.mem_cons_self c rest)
    have hr : '-' ∉ rest := fun hr => h (List.mem_cons_of_mem c hr)
    simp [splitOnDash, hc, ih hr]

/-- Splitting at the first dash after a dash-free fragment. -/
lemma splitOnDash_append {xs : List Char} (ys : List Char) (h : '-' ∉ xs) :
    splitOnDash (xs ++ '-' :: ys) = xs :: splitOnDash ys := by
  induction xs with
  | nil => simp [splitOnDash]
  | cons c rest ih =>
    have hc : ¬ c = '-' := fun hc => h (hc ▸ List.mem_cons_self c rest)
    have hr : '-' ∉ rest := fun hr => h (List.mem_cons_of_mem c hr)
    simp [splitOnDash, hc, ih hr]

/-- Parsing the empty string returns NaN. -/
lemma jsParseInt_nil : jsParseInt [] = none := rfl

/-- A header of the literal shape `bytes=<sa>-<sb>` (both fragments
dash-free) splits into exactly those two fragments. -/
lemma rangeParts_concat {sa : List Char} (sb : List Char) (hna : '-' ∉ sa) :
    rangeParts (bytesEq ++ sa ++ '-' :: sb) = sa :: splitOnDash sb := by
  have h : bytesEq ++ sa ++ '-' :: sb = bytesEq ++ (sa ++ '-' :: sb) := by
    simp [List.append_assoc]
  rw [rangeParts, h, replaceFirst_bytesEq, splitOnDash_append sb hna]

/-- The parsed start bound of a `bytes=<sa>-<sb>` header. -/
lemma rangeStart_concat {sa : List Char} (sb : List Char) (hna : '-' ∉ sa) :
    rangeStart (bytesEq ++ sa ++ '-' :: sb) = jsParseInt sa := by
  rw [rangeStart, rangeParts_concat sb hna]
  rfl

/-- The parsed end bound of a `bytes=<sa>-<sb>` header with `sb` nonempty
and dash-free. -/
lemma rangeEnd_concat (n : Nat) {sa sb : List Char} (hna : '-' ∉ sa)
    (hnb : '-' ∉ sb) (hne : sb ≠ []) :
    rangeEnd n (bytesEq ++ sa ++ '-' :: sb) = jsParseInt sb := by
  rw [rangeEnd, rangeParts_concat sb hna, splitOnDash_noDash hnb]
  simp [hne]

/-- Rounding an integer gives it back. -/
lemma jsRound_intCast (n : ℤ) : jsRound (n : ℚ) = n := by
  have h : ⌊(1 / 2 : ℚ)⌋ = 0 := by
    rw [Int.floor_eq_zero_iff]
    constructor <;> norm_num
  rw [jsRound, add_comm, Int.floor_add_int, h, zero_add]

/-- Rounding a non-negative rational gives a non-negative integer. -/
lemma jsRound_nonneg {q : ℚ} (h : 0 ≤ q) : 0 ≤ jsRound q := by
  rw [jsRound]
  exact Int.le_floor.mpr (by push_cast; linarith)

/-- Rounding is monotone. -/
lemma jsRound_mono {q r : ℚ} (h : q ≤ r) : jsRound q ≤ jsRound r := by
  exact Int.floor_le_floor (by linarith)

/-- Subtracting an integer commutes with rounding. -/
lemma jsRound_sub_intCast (q : ℚ) (n : ℤ) : jsRound (q - n) = jsRound q - n := by
  have h : q - n + 1 / 2 = q + 1 / 2 - n := by ring
  rw [jsRound, h, Int.floor_sub_int, jsRound]

/-- Rendering a natural number through the integer renderer. -/
lemma intToChars_natCast (n : Nat) : intToChars (n : Int) = natToChars n := by
  rw [intToChars, if_neg (not_lt.mpr (Int.natCast_nonneg n)), Int.toNat_natCast]

/-! ## Claims -/

/-- C1: for every stored record and every Range header `bytes=a-b` with
`0 ≤ a ≤ b < size` of the backing file, `GET /v/:id` responds 206 with
`Content-Range: bytes a-b/size`, `Content-Length = b-a+1`, and streams
exactly the bytes `a` through `b` of the file. -/
theorem vh_C1 (d : Nat → Option MediaRecord) (files : List Char → Option (List Nat))
    (id : Nat) (r : MediaRecord) (file : List Nat) (sa sb : List Char) (a b : Nat)
    (hd : d id = some r) (hf : files r.filename = some file)
    (hsa : jsParseInt sa = some (a : Int)) (hna : '-' ∉ sa)
    (hsb : jsParseInt sb = some (b : Int)) (hnb : '-' ∉ sb)
    (hab : a ≤ b) (hblt : b < file.length) :
    handleVid d files id (some (bytesEq ++ sa ++ '-' :: sb)) =
      { status := 206
        contentRange := some ("bytes ".data ++ natToChars a ++ '-' :: natToChars b
          ++ '/' :: natToChars file.length)
        contentLength := some ((b : Int) - (a : Int) + 1)
        body := (file.drop a).take (b - a + 1) } ∧
    ((file.drop a).take (b - a + 1)).length = b - a + 1 := by
  have hne : sb ≠ [] := by
    rintro rfl
    rw [jsParseInt_nil] at hsb
    exact Option.noConfusion hsb
  have hS : rangeStart (bytesEq ++ sa ++ '-' :: sb) = some (a : Int) :=
    (rangeStart_concat sb hna).trans hsa
  have hE : rangeEnd file.length (bytesEq ++ sa ++ '-' :: sb) = some (b : Int) :=
    (rangeEnd_concat file.length hna hnb hne).trans hsb
  have hnotgt : ¬ ((a : Int) > (b : Int)) := not_lt.mpr (by exact_mod_cast hab)
  have h1 : ((a : Int)).toNat = a := Int.toNat_natCast a
  have h2 : ((b : Int) + 1 - (a : Int)).toNat = b - a + 1 := by omega
  constructor
  · simp only [handleVid, hd, hf, serveRange, hS, hE, if_neg hnotgt]
    rw [contentRangeStr, intToChars_natCast, intToChars_natCast, h1, h2]
  · rw [List.length_take, List.length_drop]
    omega

/-- Concrete fixtures for witnesses. -/
def rec0 : MediaRecord :=
  { id := 0, filename := "f.mp4".data, originalName := "orig.avi".data
    mime := "video/mp4".data, size := 4, createdAt := 0, converted := true }

def d0 : Nat → Option MediaRecord := fun i => if i = 0 then some rec0 else none

def files0 : List Char → Option (List Nat) :=
  fun s => if s = "f.mp4".data then some [10, 20, 30, 40] else none

def files1 : List Char → Option (List Nat) :=
  fun s => if s = "f.mp4".data then some [] else none

def files2 : List Char → Option (List Nat) :=
  fun s => if s = "f.mp4".data then some [10, 20] else none

/-- C1 witness: the 4-byte file `[10,20,30,40]` with `Range: bytes=1-2`. -/
theorem vh_C1_witness :
    d0 0 = some rec0 ∧ (1 : Nat) ≤ 2 ∧ 2 < ([10, 20, 30, 40] : List Nat).length ∧
    handleVid d0 files0 0 (some (bytesEq ++ ['1'] ++ '-' :: ['2'])) =
      { status := 206, contentRange := some "bytes 1-2/4".data
        contentLength := some 2, body := [20, 30] } :=
  ⟨rfl, by decide, by decide,
   ((vh_C1 d0 files0 0 rec0 [10, 20, 30, 40] ['1'] ['2'] 1 2 rfl (by decide) (by decide)
      (by decide) (by decide) (by decide) (by decide) (by decide)).1).trans (by decide)⟩

/-- C10: a parsed range `bytes=a-b` with `a ≤ b` but `b ≥ size` is neither
rejected nor clamped: the handler responds 206 with
`Content-Range: bytes a-b/size` (an end bound past the last byte) and a
`Content-Length` of `b-a+1`, larger than the number of bytes the file can
supply from offset `a`. -/
theorem vh_C10 (d : Nat → Option MediaRecord) (files : List Char → Option (List Nat))
    (id : Nat) (r : MediaRecord) (file : List Nat) (sa sb : List Char) (a b : Nat)
    (hd : d id = some r) (hf : files r.filename = some file)
    (hsa : jsParseInt sa = some (a : Int)) (hna : '-' ∉ sa)
    (hsb : jsParseInt sb = some (b : Int)) (hnb : '-' ∉ sb)
    (hab : a ≤ b) (hge : file.length ≤ b) (_hpos : 0 < file.length) :
    handleVid d files id (some (bytesEq ++ sa ++ '-' :: sb)) =
      { status := 206
        contentRange := some ("bytes ".data ++ natToChars a ++ '-' :: natToChars b
          ++ '/' :: natToChars file.length)
        contentLength := some ((b : Int) - (a : Int) + 1)
        body := (file.drop a).take (b - a + 1) } ∧
    (file.length : Int) - (a : Int) < (b : Int) - (a : Int) + 1 := by
  have hne : sb ≠ [] := by
    rintro rfl
    rw [jsParseInt_nil] at hsb
    exact Option.noConfusion hsb
  have hS : rangeStart (bytesEq ++ sa ++ '-' :: sb) = some (a : Int) :=
    (rangeStart_concat sb hna).trans hsa
  have hE : rangeEnd file.length (bytesEq ++ sa ++ '-' :: sb) = some (b : Int) :=
    (rangeEnd_concat file.length hna hnb hne).trans hsb
  have hnotgt : ¬ ((a : Int) > (b : Int)) := not_lt.mpr (by exact_mod_cast hab)
  have h1 : ((a : Int)).toNat = a := Int.toNat_natCast a
  have h2 : ((b : Int) + 1 - (a : Int)).toNat = b - a + 1 := by omega
  constructor
  · simp only [handleVid, hd, hf, serveRange, hS, hE, if_neg hnotgt]
    rw [contentRangeStr, intToChars_natCast, intToChars_natCast, h1, h2]
  · omega

/-- C10 witness: the 2-byte file `[10,20]` with `Range: bytes=1-5`. -/
theorem vh_C10_witness :
    ([10, 20] : List Nat).length ≤ 5 ∧
    handleVid d0 files2 0 (some (bytesEq ++ ['1'] ++ '-' :: ['5'])) =
      { status := 206, contentRange := some "bytes 1-5/2".data
        contentLength := some 5, body := [20] } :=
  ⟨by decide,
   ((vh_C10 d0 files2 0 rec0 [10, 20] ['1'] ['5'] 1 5 rfl (by decide) (by decide)
      (by decide) (by decide) (by decide) (by decide) (by decide) (by decide)).1).trans
     (by decide)⟩

/-- C5: a Range header whose start bound is NaN, whose end bound is present
but NaN, or whose bounds satisfy `start > end`, produces a 416 response with
`Content-Range: bytes */<size>` and an empty body, for every file size
including 0.  (After the dash split no fragment contains a sign, so a bound
that parses at all parses as a non-negative integer.) -/
theorem vh_C5 (d : Nat → Option MediaRecord) (files : List Char → Option (List Nat))
    (id : Nat) (r : MediaRecord) (file : List Nat) (h : List Char)
    (hd : d id = some r) (hf : files r.filename = some file)
    (hbad : rangeStart h = none ∨ rangeEnd file.length h = none ∨
      ∃ s e : Int, rangeStart h = some s ∧ rangeEnd file.length h = some e ∧ e < s) :
    handleVid d files id (some h) =
      { status := 416
        contentRange := some ("bytes */".data ++ natToChars file.length)
        contentLength := none, body := [] } := by
  simp only [handleVid, hd, hf]
  rcases hbad with h1 | h2 | ⟨s, e, hs, he, hlt⟩
  · cases hE : rangeEnd file.length h with
    | none => simp only [serveRange, h1, hE]; rfl
    | some e => simp only [serveRange, h1, hE]; rfl
  · cases hS : rangeStart h with
    | none => simp only [serveRange, hS, h2]; rfl
    | some s => simp only [serveRange, hS, h2]; rfl
  · simp only [serveRange, hs, he, if_pos hlt]
    rfl

/-- C5 witness: the empty (size 0) file with `Range: bytes=5-2`. -/
theorem vh_C5_witness :
    (∃ s e : Int, rangeStart "bytes=5-2".data = some s ∧
      rangeEnd 0 "bytes=5-2".data = some e ∧ e < s) ∧
    handleVid d0 files1 0 (some "bytes=5-2".data) =
      { status := 416, contentRange := some "bytes */0".data
        contentLength := none, body := [] } :=
  ⟨⟨5, 2, by decide, by decide, by decide⟩,
   (vh_C5 d0 files1 0 rec0 [] "bytes=5-2".data rfl (by decide)
      (Or.inr (Or.inr ⟨5, 2, by decide, by decide, by decide⟩))).trans (by decide)⟩

/-- C2 counterexample: in `main.js`, when the transcode succeeds but the
subsequent metadata update (`fs.statSync` / `writeFileSync`) throws, the
status write sequence is queued, running, done, error — the final write
leaves the terminal state `done`, so the trace is not monotone. -/
theorem vh_C2_counterexample :
    mainJsStatusTrace true false =
      [JStatus.queued, JStatus.running, JStatus.done, JStatus.error] ∧
    traceMonotoneB (mainJsStatusTrace true false) = false := by decide

/-- C2 amended: the job status is monotone along
queued → running → (done | error) in the websocket variant for every
combination of transcode and metadata-update outcomes, and in `main.js`
whenever the post-transcode metadata update does not throw. -/
theorem vh_C2_amended :
    (∀ transcodeOk metaOk, traceMonotoneB (part000StatusTrace transcodeOk metaOk) = true) ∧
    (∀ transcodeOk, traceMonotoneB (mainJsStatusTrace transcodeOk true) = true) := by
  decide

/-- A job table holding one fresh (non-terminal, `queued`) job at id 0. -/
def jobs0 : Nat → Option Job := fun i => if i = 0 then some freshJob else none

/-- C3 counterexample: id 0 already has a non-terminal (`queued`) job, yet
running the upload flow's job-creation line followed by the background
task's first assignments does not fail — it reuses the existing entry and
mutates it, setting its status to `running`.  The original job's state is
therefore affected, and no `AlreadyExists` error exists in the code. -/
theorem vh_C3_counterexample :
    (jobs0 0).map Job.status = some JStatus.queued ∧
    isTerminal JStatus.queued = false ∧
    startJob (createJob jobs0 0) 0 0 ≠ jobs0 0 ∧
    (startJob (createJob jobs0 0) 0 0).map Job.status = some JStatus.running := by
  decide

/-- C3 amended: job creation never fails: when a job already exists for the
id, `transcodeJobs[id] = transcodeJobs[id] || \x7b...\x7d` leaves the table
unchanged, and the background task then overwrites the existing job's
status with `running` (and its message with `starting`). -/
theorem vh_C3_amended (jobs : Nat → Option Job) (id : Nat) (j : Job)
    (hj : jobs id = some j) :
    createJob jobs id = jobs ∧
    startJob (createJob jobs id) id id =
      some { j with status := JStatus.running, message := "starting".data } := by
  have hc : createJob jobs id = jobs := by
    funext i
    rw [createJob]
    by_cases hi : i = id
    · subst hi
      rw [if_pos rfl, hj]
      rfl
    · rw [if_neg hi]
  refine ⟨hc, ?_⟩
  rw [hc, startJob, if_pos rfl, hj, Option.map_some']

/-- C3 amended witness: the concrete table `jobs0`. -/
theorem vh_C3_amended_witness :
    jobs0 0 = some freshJob ∧
    (createJob jobs0 0 = jobs0 ∧
      startJob (createJob jobs0 0) 0 0 =
        some { freshJob with status := JStatus.running, message := "starting".data }) :=
  ⟨rfl, vh_C3_amended jobs0 0 freshJob rfl⟩

/-- C4: `subscribe(connection, id)` puts the connection in id's subscriber
set and sends it exactly one status message whose payload is the job's
current state (`none` when no job exists) — in particular also when the job
already reached `done`, since `jobs` is arbitrary here. -/
theorem vh_C4 (jobs : Nat → Option Job) (st : WsState) (c id : Nat) :
    c ∈ (wsSubscribe jobs st c id).1.subs id ∧
    (wsSubscribe jobs st c id).2 = [{ id := id, job := jobs id }] := by
  refine ⟨?_, rfl⟩
  show c ∈ (if id = id then insertConn c (st.subs id) else st.subs id)
  rw [if_pos rfl, insertConn]
  by_cases hc : c ∈ st.subs id
  · rw [if_pos hc]
    exact hc
  · rw [if_neg hc]
    exact List.mem_append_right _ (List.mem_singleton.mpr rfl)

/-- An empty job table. -/
def jobsNone : Nat → Option Job := fun _ => none

/-- The hub's initial state: no subscriber sets, no `_subscribedId`. -/
def hubState0 : WsState := { subs := fun _ => [], lastSub := fun _ => none }

/-- C7 counterexample: connection 7 subscribes to id 0, then to id 1, then
closes.  The close handler only deletes it from the set of
`ws._subscribedId = 1`, so connection 7 is still a member of id 0's
subscriber set afterwards. -/
theorem vh_C7_counterexample :
    7 ∈ (wsClose (wsSubscribe jobsNone
          (wsSubscribe jobsNone hubState0 7 0).1 7 1).1 7).subs 0 := by
  decide

/-- C7 amended: closing a connection removes it from the subscriber set of
its most recently subscribed id (`ws._subscribedId`) only; every other id's
set is left unchanged. -/
theorem vh_C7_amended (st : WsState) (c id : Nat) (h : st.lastSub c = some id) :
    c ∉ (wsClose st c).subs id ∧
    ∀ i, i ≠ id → (wsClose st c).subs i = st.subs i := by
  simp only [wsClose, h]
  constructor
  · simp [List.mem_filter]
  · intro i hi
    simp [hi]

/-- C7 amended witness: connection 5 subscribed (only) to id 3, then
closed: it is gone from id 3's set. -/
theorem vh_C7_amended_witness :
    (wsSubscribe jobsNone hubState0 5 3).1.lastSub 5 = some 3 ∧
    5 ∉ (wsClose (wsSubscribe jobsNone hubState0 5 3).1 5).subs 3 :=
  ⟨by decide,
   (vh_C7_amended (wsSubscribe jobsNone hubState0 5 3).1 5 3 (by decide)).1⟩

/-- The broadcast loop visits every subscriber, in order, whatever the
sockets' states and send outcomes are. -/
lemma broadcastRun_fst (isOpen sendThrows : Nat → Bool) (conns : List Nat) :
    (broadcastRun conns isOpen sendThrows).map Prod.fst = conns := by
  induction conns with
  | nil => rfl
  | cons c rest ih =>
    simp only [broadcastRun, List.map_cons] at ih ⊢
    rw [ih]

/-- C8: `broadcastStatus(id)` pushes the current job state
(`transcodeJobs[id] || \x7bstatus: 'none'\x7d`) toward every member of id's
subscriber set: every member is visited (no outcome aborts the loop), and
every open member whose own send does not throw receives the message,
whatever happens with the other members' sends. -/
theorem vh_C8 (jobs : Nat → Option Job) (st : WsState)
    (isOpen sendThrows : Nat → Bool) (id : Nat) :
    (broadcastStatus jobs st isOpen sendThrows id).1 = { id := id, job := jobs id } ∧
    ((broadcastStatus jobs st isOpen sendThrows id).2.map Prod.fst = st.subs id) ∧
    ∀ c ∈ st.subs id, isOpen c = true → sendThrows c = false →
      (c, SendOutcome.sent) ∈ (broadcastStatus jobs st isOpen sendThrows id).2 := by
  refine ⟨rfl, broadcastRun_fst isOpen sendThrows (st.subs id), ?_⟩
  intro c hc ho ht
  simp only [broadcastStatus, broadcastRun]
  exact List.mem_map.mpr ⟨c, hc, by simp [ho, ht]⟩

/-- Every socket reports `readyState === OPEN`. -/
def openAll : Nat → Bool := fun _ => true

/-- Only socket 2's `ws.send` throws. -/
def throwsTwo : Nat → Bool := fun c => c == 2

/-- A hub state where id 0 has subscribers 1, 2 and 3. -/
def hubStateW8 : WsState :=
  { subs := fun i => if i = 0 then [1, 2, 3] else [], lastSub := fun _ => none }

/-- C8 witness: socket 2's send throws, yet socket 3 — a later member of the
same set — is still sent the message. -/
theorem vh_C8_witness :
    3 ∈ hubStateW8.subs 0 ∧ openAll 3 = true ∧ throwsTwo 3 = false ∧
    throwsTwo 2 = true ∧
    (3, SendOutcome.sent) ∈ (broadcastStatus jobsNone hubStateW8 openAll throwsTwo 0).2 :=
  ⟨by decide, rfl, by decide, by decide,
   (vh_C8 jobsNone hubStateW8 openAll throwsTwo 0).2.2 3 (by decide) rfl (by decide)⟩

/-- C6: during a running job with `inputSize > 0`, one poll tick writes
`progress = min(100, round(100 * currentOutputSize / inputSize))`,
`elapsed = e` (the rounded elapsed seconds), and
`eta = round(e * (100/percent) - e)` when `percent > 0`, `null` when
`percent = 0` — in exact integer arithmetic. -/
theorem vh_C6 (outSize inputSize elapsedMs : Nat) (p e : ℤ)
    (hin : 0 < inputSize)
    (hp : p = min 100 (jsRound (100 * (outSize : ℚ) / (inputSize : ℚ))))
    (he : e = jsRound ((elapsedMs : ℚ) / 1000)) :
    pollStep outSize inputSize elapsedMs =
      some { progress := p, elapsed := e
             eta := if 0 < p then
                 some (jsRound ((e : ℚ) * (100 / (p : ℚ)) - (e : ℚ)))
               else none } := by
  have h0 : ¬ inputSize = 0 := by omega
  have hel0 : 0 ≤ jsRound ((elapsedMs : ℚ) / 1000) :=
    jsRound_nonneg (by positivity)
  have hpct : min 100 (jsRound ((outSize : ℚ) / (inputSize : ℚ) * 100)) = p := by
    rw [hp]
    congr 2
    ring
  have helmax : max 0 (jsRound ((elapsedMs : ℚ) / 1000)) = e := by
    rw [he]
    exact max_eq_right hel0
  simp only [pollStep, if_neg h0]
  rw [hpct, helmax]
  refine congrArg some ?_
  congr 1
  by_cases hp0 : 0 < p
  · rw [if_pos hp0, if_pos hp0]
    have he0 : 0 ≤ e := he ▸ hel0
    have hple : p ≤ 100 := hp ▸ min_le_left _ _
    have hpq : (0 : ℚ) < (p : ℚ) := by exact_mod_cast hp0
    have hdiv : (1 : ℚ) ≤ 100 / (p : ℚ) :=
      (one_le_div hpq).mpr (by exact_mod_cast hple)
    have hEle : (e : ℚ) ≤ (e : ℚ) * (100 / (p : ℚ)) :=
      le_mul_of_one_le_right (by exact_mod_cast he0) hdiv
    have h2 : e ≤ jsRound ((e : ℚ) * (100 / (p : ℚ))) :=
      (jsRound_intCast e).symm.trans_le (jsRound_mono hEle)
    rw [jsRound_sub_intCast, max_eq_right (by omega)]
  · rw [if_neg hp0, if_neg hp0]

/-- C6 witness: output 5 of 10 bytes after 2000 ms gives
`progress = 50`, `elapsed = 2`, `eta = 2`. -/
theorem vh_C6_witness :
    0 < 10 ∧ pollStep 5 10 2000 = some { progress := 50, elapsed := 2, eta := some 2 } := by
  refine ⟨by decide, ?_⟩
  rw [vh_C6 5 10 2000 50 2 (by decide) (by norm_num [jsRound]) (by norm_num [jsRound])]
  norm_num [jsRound]

/-- C9: when the transcode for an existing record succeeds, the metadata
update rewrites exactly the `filename`, `mime`, `size` and `converted`
fields of that record as one group (keeping `id`, `originalName` and
`createdAt`), leaves every other record untouched, and when the transcode
fails neither the metadata nor the stored files change. -/
theorem vh_C9 (files : List (List Char)) (d : Nat → Option MediaRecord) (id : Nat)
    (origName newName : List Char) (lookupMime : Option (List Char)) (newSize : Nat)
    (r : MediaRecord) (hd : d id = some r) :
    (bgTranscodeEffect true files d id origName newName lookupMime newSize).2 id =
      some { r with filename := newName, mime := lookupMime.getD r.mime
                    size := newSize, converted := true } ∧
    (∀ i, i ≠ id →
      (bgTranscodeEffect true files d id origName newName lookupMime newSize).2 i = d i) ∧
    bgTranscodeEffect false files d id origName newName lookupMime newSize = (files, d) := by
  refine ⟨?_, ?_, rfl⟩
  · simp [bgTranscodeEffect, updateMetaAfterTranscode, hd]
  · intro i hi
    simp [bgTranscodeEffect, updateMetaAfterTranscode, hd, hi]

/-- C9 witness: `rec0` under `d0`, a successful and a failed transcode. -/
theorem vh_C9_witness :
    d0 0 = some rec0 ∧
    (bgTranscodeEffect true ["orig.avi".data] d0 0 "orig.avi".data "c.mp4".data
        (some "video/mp4".data) 7).2 0 =
      some { rec0 with filename := "c.mp4".data, mime := "video/mp4".data
                       size := 7, converted := true } ∧
    bgTranscodeEffect false ["orig.avi".data] d0 0 "orig.avi".data "c.mp4".data
        (some "video/mp4".data) 7 = (["orig.avi".data], d0) :=
  ⟨rfl,
   ((vh_C9 ["orig.avi".data] d0 0 "orig.avi".data "c.mp4".data
      (some "video/mp4".data) 7 rec0 rfl).1).trans (by decide),
   (vh_C9 ["orig.avi".data] d0 0 "orig.avi".data "c.mp4".data
      (some "video/mp4".data) 7 rec0 rfl).2.2⟩

end VideoHoster
